import Mathlib

/-!
# Verification of the RedisShake RDB loader

Shallow embedding of `internal/rdb/rdb.go` (the `Loader`: `ParseRDB`,
`parseRDBEntry`, `createValueDump`) and `internal/rdb/types/string.go`
(`StringObject.Rewrite`), together with proofs of the specified properties.

Bytes are modelled as `Nat` (values `< 256`), Go `int64` arithmetic as `Int`
with an explicit wrap into `[-2^63, 2^63)`, Go strings as Lean `String`, and
the outbound channel as the ordered list of emitted entries.  The RDB record
stream is modelled at record granularity (one constructor per opcode, carrying
the values that the `structure` package decoders would have produced), since
the byte-level primitive decoders are not part of the sources under
verification; the dispatcher logic itself is translated statement by statement
from `parseRDBEntry`.
-/

namespace RedisShake

/-- Go `int64` conversion/overflow: reduce an unbounded `Int` into the
two's-complement range `[-2^63, 2^63)`. -/
def wrap64 (x : Int) : Int :=
  (x + 2 ^ 63) % 2 ^ 64 - 2 ^ 63

/-- `binary.Write(buf, binary.LittleEndian, uint16 v)`: the two bytes of a
16-bit value, least significant first. -/
def le16 (n : Nat) : List Nat :=
  [n % 256, n / 256 % 256]

/-- `binary.Write(buf, binary.LittleEndian, uint64 v)`: the eight bytes of a
64-bit value, least significant first. -/
def le64 (n : Nat) : List Nat :=
  [n % 256, n / 2 ^ 8 % 256, n / 2 ^ 16 % 256, n / 2 ^ 24 % 256,
   n / 2 ^ 32 % 256, n / 2 ^ 40 % 256, n / 2 ^ 48 % 256, n / 2 ^ 56 % 256]

/-- Reflected form of the CRC-64 "Jones" polynomial `0xad93d23594c935a9`. -/
def crc64Poly : Nat := 0x95ac9329ac4bc9b5

/-- One shift step of the bit-serial reflected CRC-64. -/
def crc64ShiftStep (crc : Nat) : Nat :=
  if crc % 2 = 1 then (crc / 2) ^^^ crc64Poly else crc / 2

/-- Fold one input byte into the CRC state (eight shift steps). -/
def crc64Byte (crc b : Nat) : Nat :=
  Nat.iterate crc64ShiftStep 8 (crc ^^^ b % 256)

/-- Modelled from the spec: `utils.CalcCRC64` (the Checksum Engine) is not
among the sources under `src/`; the spec describes it as the pure, table-driven
CRC-64 in the "Jones" variant used by the reference store (reflected, zero
initial value).  Implemented here bit-serially over the byte list. -/
def CalcCRC64 (bytes : List Nat) : Nat :=
  bytes.foldl crc64Byte 0

/-- `Loader.createValueDump`: reset the reused `dumpBuffer`, write the type
byte, the captured value bytes, the little-endian `uint16(6)` footer, then the
little-endian CRC-64 of everything written so far, and return the buffer
contents.  Result: `(new dumpBuffer contents, returned string bytes)`. -/
def createValueDump (dumpBuffer : List Nat) (typeByte : Nat) (val : List Nat) :
    List Nat × List Nat :=
  let buf : List Nat := []
  let buf := buf ++ [typeByte]
  let buf := buf ++ val
  let buf := buf ++ le16 6
  let sum64 := CalcCRC64 buf
  let buf := buf ++ le64 sum64
  (buf, buf)

/-- Go `string(bytes)` / `buffer.String()`: a byte list viewed as a string. -/
def bytesToString (l : List Nat) : String :=
  String.mk (l.map Char.ofNat)

/-- Decimal digit value of a character, if it is a digit. -/
def digitVal (c : Char) : Option Nat :=
  if '0' ≤ c ∧ c ≤ '9' then some (c.toNat - '0'.toNat) else none

/-- Accumulating loop for a run of decimal digits; fails on a non-digit. -/
def parseDigitsAux : List Char → Nat → Option Nat
  | [], acc => some acc
  | c :: cs, acc =>
    match digitVal c with
    | some d => parseDigitsAux cs (acc * 10 + d)
    | none => none

/-- A non-empty all-digit character run as a number. -/
def parseDigits : List Char → Option Nat
  | [] => none
  | cs => parseDigitsAux cs 0

/-- `strconv.Atoi`: an optional sign followed by a non-empty digit run. -/
def goAtoi (s : String) : Option Int :=
  match s.data with
  | '+' :: rest => (parseDigits rest).map Int.ofNat
  | '-' :: rest => (parseDigits rest).map (fun n => -(n : Int))
  | cs => (parseDigits cs).map Int.ofNat

/-- `entry.Entry`, restricted to the fields populated by the loader.  Modelled
from the spec: the `entry` package is not among the sources under `src/`; the
spec defines a Command as `{database_index, arguments, is_snapshot_load}` and
`entry.NewEntry` zero-initialises the fields (Go zero values: `0`, `nil`,
`false`). -/
structure Entry where
  dbId : Int
  argv : List String
  isBase : Bool
deriving DecidableEq

/-- The configuration fields read by the loader (`config.Config`).  The target
version is a number compared against `3.0` and `5.0`; modelled as `ℚ`. -/
structure Config where
  targetRedisProtoMaxBulkLen : Nat
  rdbRestoreCommandBehavior : String
  targetVersion : ℚ

/-- The mutable fields of `Loader` that the parse loop reads and writes. -/
structure LoaderState where
  replStreamDbId : Int
  nowDBId : Int
  expireMs : Int
  idle : Int
  freq : Int
  dumpBuffer : List Nat
deriving DecidableEq

/-- A fresh `Loader` (Go zero values). -/
def initialState : LoaderState :=
  { replStreamDbId := 0, nowDBId := 0, expireMs := 0, idle := 0, freq := 0,
    dumpBuffer := [] }

/-- One decoded RDB stream record, at the granularity `parseRDBEntry`
dispatches on.  Each constructor carries the values the `structure` package
decoders return for that opcode: `idle` a `ReadLength` (`u64`), `freq` a
`ReadByte`, `expireAtMs` a `ReadUint64`, `expireAtSeconds` a `ReadUint32`,
`selectDb` a `ReadLength`.  A `value` record carries the type byte, the key,
the captured payload bytes duplicated by the tee reader, and the command lists
that `types.ParseObject(...).Rewrite()` produces for the decoded object. -/
inductive RDBRecord
  | idle (v : Nat)
  | freq (b : Nat)
  | aux (key value : String)
  | resizeHint (dbSize expireSize : Nat)
  | expireAtMs (ts : Nat)
  | expireAtSeconds (ts : Nat)
  | selectDb (idx : Nat)
  | eof
  | value (typeByte : Nat) (key : String) (payload : List Nat)
      (rewriteCmds : List (List String))
deriving DecidableEq

/-- The fatal (`log.Panicf` / `log.PanicError`) conditions of the loader. -/
inductive ParseError
  | headerTruncated
  | badMagic
  | badVersion
  | truncatedInput
  | replStreamDbAtoiFailed
  | replaceNotSupported
deriving DecidableEq

/-- Outcome of one iteration of the `parseRDBEntry` loop body. -/
inductive StepResult
  | halt
  | next (st : LoaderState) (emitted : List Entry)
  | fail (e : ParseError)
deriving DecidableEq

/-- One iteration of the `parseRDBEntry` dispatch loop (`rdb.go` lines
111-224), translated case by case from the `switch typeByte` statement.
`now` is `time.Now().UnixMilli()` at the moment the record is parsed. -/
def processRecord (cfg : Config) (now : Int) (st : LoaderState) :
    RDBRecord → StepResult
  | .idle v => .next { st with idle := wrap64 v } []
  | .freq b => .next { st with freq := (b : Int) } []
  | .aux key value =>
    if key = "repl-stream-db" then
      match goAtoi value with
      | some n => .next { st with replStreamDbId := n } []
      | none => .fail .replStreamDbAtoiFailed
    else if key = "lua" then
      .next st [{ dbId := 0, argv := ["script", "load", value], isBase := true }]
    else
      .next st []
  | .resizeHint _ _ => .next st []
  | .expireAtMs ts =>
    let e := wrap64 (wrap64 ts - now)
    .next { st with expireMs := if e < 0 then 1 else e } []
  | .expireAtSeconds ts =>
    let e := wrap64 ((ts : Int) * 1000 - now)
    .next { st with expireMs := if e < 0 then 1 else e } []
  | .selectDb idx => .next { st with nowDBId := wrap64 idx } []
  | .eof => .halt
  | .value typeByte key payload rewriteCmds =>
    if payload.length > cfg.targetRedisProtoMaxBulkLen then
      let rewriteEntries := rewriteCmds.map fun cmd =>
        ({ dbId := st.nowDBId, argv := cmd, isBase := true } : Entry)
      let expireEntries :=
        if st.expireMs ≠ 0 then
          [({ dbId := st.nowDBId,
              argv := ["PEXPIRE", key, toString st.expireMs],
              isBase := true } : Entry)]
        else []
      .next { st with expireMs := 0, idle := 0, freq := 0 }
        (rewriteEntries ++ expireEntries)
    else
      let dump := createValueDump st.dumpBuffer typeByte payload
      let argv0 := ["restore", key, toString st.expireMs, bytesToString dump.2]
      let argv1 :=
        if cfg.rdbRestoreCommandBehavior = "rewrite" then
          if cfg.targetVersion < 3 then none
          else some (argv0 ++ ["replace"])
        else some argv0
      match argv1 with
      | none => .fail .replaceNotSupported
      | some argv1 =>
        let argv2 :=
          if st.idle ≠ 0 ∧ cfg.targetVersion ≥ 5 then
            argv1 ++ ["idletime", toString st.idle]
          else argv1
        let argv3 :=
          if st.freq ≠ 0 ∧ cfg.targetVersion ≥ 5 then
            argv2 ++ ["freq", toString st.freq]
          else argv2
        .next { st with expireMs := 0, idle := 0, freq := 0, dumpBuffer := dump.1 }
          [{ dbId := st.nowDBId, argv := argv3, isBase := true }]

/-- The `parseRDBEntry` loop over a record stream: stop at `kEOF` (trailing
records are not consumed), fail with `truncatedInput` when the stream runs out
without an end marker (the next `structure.ReadByte` would panic), and
otherwise thread the state and concatenate the emitted entries in order. -/
def runRecords (cfg : Config) (now : Int) :
    LoaderState → List RDBRecord → Except ParseError (LoaderState × List Entry)
  | _, [] => .error .truncatedInput
  | st, r :: rest =>
    match processRecord cfg now st r with
    | .halt => .ok (st, [])
    | .fail e => .error e
    | .next st' es =>
      match runRecords cfg now st' rest with
      | .ok (stF, esF) => .ok (stF, es ++ esF)
      | .error e => .error e

/-- The five magic bytes `"REDIS"`. -/
def redisMagic : List Nat := [82, 69, 68, 73, 83]

/-- `Loader.ParseRDB`: read 9 header bytes (fatal if fewer are available),
require the first 5 to equal `"REDIS"` and the next 4 to `strconv.Atoi`-parse,
then run the record loop on a fresh state and return `ld.replStreamDbId`
together with the emitted entries.  `headerBytes` is the byte stream handed to
`io.ReadFull`; the records that follow the header are modelled at record
granularity as `records`. -/
def ParseRDB (cfg : Config) (now : Int) (headerBytes : List Nat)
    (records : List RDBRecord) : Except ParseError (Int × List Entry) :=
  if headerBytes.length < 9 then .error .headerTruncated
  else if ¬headerBytes.take 5 = redisMagic then .error .badMagic
  else
    match goAtoi (bytesToString ((headerBytes.drop 5).take 4)) with
    | none => .error .badVersion
    | some _version =>
      match runRecords cfg now initialState records with
      | .ok (st, es) => .ok (st.replStreamDbId, es)
      | .error e => .error e

/-- `types.StringObject` (`internal/rdb/types/string.go`). -/
structure StringObject where
  value : String
  key : String
deriving DecidableEq

/-- `StringObject.Rewrite`: one `set key value` command. -/
def StringObject.Rewrite (o : StringObject) : List (List String) :=
  [["set", o.key, o.value]]

/-- A record that can never reach the replace-modifier version gate (nor any
other fatal condition of the loop body): a `value` record whose payload is
oversize, an `aux` record whose value parses when its key demands it, or any
other metadata record. -/
def avoidsReplaceGate (cfg : Config) : RDBRecord → Prop
  | .value _ _ payload _ => payload.length > cfg.targetRedisProtoMaxBulkLen
  | .aux key val => key = "repl-stream-db" → (goAtoi val).isSome
  | _ => True

/-- A concrete configuration with the default 512 MiB oversize threshold and
no rewrite-on-restore behaviour. -/
def cfgPlain : Config :=
  { targetRedisProtoMaxBulkLen := 536870912,
    rdbRestoreCommandBehavior := "panic",
    targetVersion := 6 }

/-- A concrete configuration with a zero oversize threshold, so that every
non-empty value takes the oversize path. -/
def cfgTiny : Config :=
  { targetRedisProtoMaxBulkLen := 0,
    rdbRestoreCommandBehavior := "panic",
    targetVersion := 6 }

/-- A concrete configuration requesting rewrite-on-restore against a modern
target. -/
def cfgRewrite : Config :=
  { targetRedisProtoMaxBulkLen := 536870912,
    rdbRestoreCommandBehavior := "rewrite",
    targetVersion := 6 }

/-- A concrete configuration requesting rewrite-on-restore against a target
older than 3.0. -/
def cfgRewriteOld : Config :=
  { targetRedisProtoMaxBulkLen := 536870912,
    rdbRestoreCommandBehavior := "rewrite",
    targetVersion := 2 }

/-! ## Claim theorems -/

/-- Claim C1, counterexample: an `ExpireAtMs` record whose timestamp equals
the current wall clock yields a non-positive (zero) relative offset, yet the
stored `pending_expire_ms` is `0`, not the claimed `1` — the code clamps only
strictly negative offsets (`if ld.expireMs < 0`). -/
theorem C1_counterexample :
    wrap64 (wrap64 1000 - 1000) ≤ 0 ∧
    processRecord cfgPlain 1000 initialState (.expireAtMs 1000) =
      .next { initialState with expireMs := 0 } [] ∧
    ({ initialState with expireMs := 0 } : LoaderState).expireMs ≠ 1 := by
  refine ⟨by decide, by decide, by decide⟩

/-- Claim C1 (amended): for `ExpireAtMs` and `ExpireAtSeconds` the absolute
timestamp is converted to a relative offset by subtracting the current
wall-clock milliseconds (in Go `int64` arithmetic); a strictly negative result
is clamped to exactly `1`, while a result of exactly `0` is stored unchanged
(coinciding with "no expiry"); the stored `pending_expire_ms` is never
negative, and no command is emitted. -/
theorem C1_expire_clamp (cfg : Config) (now : Int) (st : LoaderState)
    (tsMs tsSec : Nat) :
    processRecord cfg now st (.expireAtMs tsMs) =
      .next { st with expireMs :=
        (if wrap64 (wrap64 tsMs - now) < 0 then 1
         else wrap64 (wrap64 tsMs - now)) } [] ∧
    processRecord cfg now st (.expireAtSeconds tsSec) =
      .next { st with expireMs :=
        (if wrap64 ((tsSec : Int) * 1000 - now) < 0 then 1
         else wrap64 ((tsSec : Int) * 1000 - now)) } [] ∧
    (∀ st' es, processRecord cfg now st (.expireAtMs tsMs) = .next st' es →
      0 ≤ st'.expireMs ∧
      (wrap64 (wrap64 tsMs - now) < 0 → st'.expireMs = 1)) := by
  refine ⟨rfl, rfl, fun st' es h => ?_⟩
  have hA : processRecord cfg now st (.expireAtMs tsMs) =
      .next { st with expireMs :=
        (if wrap64 (wrap64 tsMs - now) < 0 then 1
         else wrap64 (wrap64 tsMs - now)) } [] := rfl
  rw [hA] at h
  injection h with h1 h2
  subst h1
  constructor
  · by_cases hneg : wrap64 (wrap64 tsMs - now) < 0 <;> simp [hneg] <;> omega
  · intro hneg; simp [hneg]

/-- Claim C1 witness: concrete instance of the amended theorem at a past
timestamp (`10` ms against a clock of `5000` ms), where the clamp applies. -/
theorem C1_expire_clamp_witness :
    0 ≤ ({ initialState with expireMs := 1 } : LoaderState).expireMs ∧
    (wrap64 (wrap64 10 - 5000) < 0 →
      ({ initialState with expireMs := 1 } : LoaderState).expireMs = 1) :=
  (C1_expire_clamp cfgPlain 5000 initialState 10 0).2.2
    { initialState with expireMs := 1 } [] (by decide)

/-- Claim C2: `createValueDump` returns exactly
`[type_tag][payload][uint16 6, little-endian][crc64 of the preceding bytes,
little-endian]`, and re-splitting the output recovers the payload. -/
theorem C2_dump_envelope (dumpBuffer : List Nat) (typeByte : Nat)
    (payload : List Nat) :
    (createValueDump dumpBuffer typeByte payload).2 =
      typeByte ::
        (payload ++ le16 6 ++
          le64 (CalcCRC64 (typeByte :: (payload ++ le16 6)))) ∧
    le16 6 = [6, 0] ∧
    ((createValueDump dumpBuffer typeByte payload).2.drop 1).take
        payload.length = payload ∧
    (createValueDump dumpBuffer typeByte payload).2.take 1 = [typeByte] ∧
    (createValueDump dumpBuffer typeByte payload).2.length =
      payload.length + 11 := by
  refine ⟨by simp [createValueDump], rfl, ?_, rfl, ?_⟩
  · simp only [createValueDump, List.nil_append, List.singleton_append,
      List.cons_append, List.drop_succ_cons, List.drop_zero, List.append_assoc]
    exact List.take_left ..
  · simp [createValueDump, le16, le64]

/-- Claim C9: `createValueDump` is deterministic in `(type_tag, payload)`
despite the reused internal buffer — the buffer is reset at the start of every
call, so the returned envelope does not depend on the buffer's prior
contents. -/
theorem C9_dump_deterministic (b₁ b₂ : List Nat) (typeByte : Nat)
    (val : List Nat) :
    (createValueDump b₁ typeByte val).2 = (createValueDump b₂ typeByte val).2 :=
  rfl

/-- Claim C3: for a non-oversize `Value` record the dispatcher emits exactly
one entry, tagged with the current database index and the snapshot-load flag,
whose arguments are `["restore", key, decimal pending_expire_ms, envelope]`
followed by `"replace"` exactly when the restore behaviour is `"rewrite"`, an
`idletime` modifier exactly when `pending_idle ≠ 0` and the target version is
at least `5.0`, and a `freq` modifier exactly when `pending_freq ≠ 0` under
the same version gate. -/
theorem C3_restore_command (cfg : Config) (now : Int) (st : LoaderState)
    (typeByte : Nat) (key : String) (payload : List Nat)
    (rewriteCmds : List (List String))
    (hsize : payload.length ≤ cfg.targetRedisProtoMaxBulkLen)
    (hgate : cfg.rdbRestoreCommandBehavior = "rewrite" →
      (3 : ℚ) ≤ cfg.targetVersion) :
    processRecord cfg now st (.value typeByte key payload rewriteCmds) =
      .next { st with expireMs := 0, idle := 0, freq := 0,
                      dumpBuffer := (createValueDump st.dumpBuffer typeByte payload).1 }
        [{ dbId := st.nowDBId,
           argv := ["restore", key, toString st.expireMs,
                    bytesToString (createValueDump st.dumpBuffer typeByte payload).2]
             ++ (if cfg.rdbRestoreCommandBehavior = "rewrite" then ["replace"]
                 else [])
             ++ (if st.idle ≠ 0 ∧ cfg.targetVersion ≥ 5 then
                   ["idletime", toString st.idle] else [])
             ++ (if st.freq ≠ 0 ∧ cfg.targetVersion ≥ 5 then
                   ["freq", toString st.freq] else []),
           isBase := true }] := by
  have hns : ¬ payload.length > cfg.targetRedisProtoMaxBulkLen := by omega
  by_cases hrw : cfg.rdbRestoreCommandBehavior = "rewrite"
  · have hv : ¬ cfg.targetVersion < 3 := not_lt.mpr (hgate hrw)
    by_cases h5 : cfg.targetVersion ≥ 5 <;>
      by_cases hidle : st.idle = 0 <;>
        by_cases hfreq : st.freq = 0 <;>
          simp [processRecord, hns, hrw, hv, h5, hidle, hfreq,
            List.append_assoc]
  · by_cases h5 : cfg.targetVersion ≥ 5 <;>
      by_cases hidle : st.idle = 0 <;>
        by_cases hfreq : st.freq = 0 <;>
          simp [processRecord, hns, hrw, h5, hidle, hfreq, List.append_assoc]

/-- Claim C3 witness: concrete instance — key `"k"`, payload byte `118`, a
rewrite-on-restore configuration against target version 6, fresh state. -/
theorem C3_restore_command_witness :
    ([118] : List Nat).length ≤ cfgRewrite.targetRedisProtoMaxBulkLen ∧
    (cfgRewrite.rdbRestoreCommandBehavior = "rewrite" →
      (3 : ℚ) ≤ cfgRewrite.targetVersion) ∧
    processRecord cfgRewrite 0 initialState (.value 0 "k" [118] []) =
      .next { initialState with
                expireMs := 0, idle := 0, freq := 0,
                dumpBuffer := (createValueDump initialState.dumpBuffer 0 [118]).1 }
        [{ dbId := initialState.nowDBId,
           argv := ["restore", "k", toString initialState.expireMs,
                    bytesToString (createValueDump initialState.dumpBuffer 0 [118]).2]
             ++ (if cfgRewrite.rdbRestoreCommandBehavior = "rewrite" then
                   ["replace"] else [])
             ++ (if initialState.idle ≠ 0 ∧ cfgRewrite.targetVersion ≥ 5 then
                   ["idletime", toString initialState.idle] else [])
             ++ (if initialState.freq ≠ 0 ∧ cfgRewrite.targetVersion ≥ 5 then
                   ["freq", toString initialState.freq] else []),
           isBase := true }] :=
  ⟨by decide, fun _ => by decide,
   C3_restore_command cfgRewrite 0 initialState 0 "k" [118] []
     (by decide) (fun _ => by decide)⟩

/-- Claim C4: for an oversize `Value` record the dispatcher emits one entry
per command list returned by the decoded object's `Rewrite` (each with the
current database index and the snapshot-load flag) followed, exactly when
`pending_expire_ms ≠ 0`, by one `PEXPIRE` command carrying that value; the
dump buffer is untouched (no envelope is built), and a string object's
`Rewrite` is the single command `["set", key, value]`. -/
theorem C4_oversize_rewrite (cfg : Config) (now : Int) (st : LoaderState)
    (typeByte : Nat) (key : String) (payload : List Nat)
    (rewriteCmds : List (List String))
    (hsize : payload.length > cfg.targetRedisProtoMaxBulkLen) :
    processRecord cfg now st (.value typeByte key payload rewriteCmds) =
      .next { st with expireMs := 0, idle := 0, freq := 0 }
        ((rewriteCmds.map fun cmd =>
            ({ dbId := st.nowDBId, argv := cmd, isBase := true } : Entry))
          ++ (if st.expireMs ≠ 0 then
                [({ dbId := st.nowDBId,
                    argv := ["PEXPIRE", key, toString st.expireMs],
                    isBase := true } : Entry)]
              else [])) ∧
    ({ st with expireMs := 0, idle := 0, freq := 0 } : LoaderState).dumpBuffer
      = st.dumpBuffer ∧
    (∀ k v, StringObject.Rewrite { value := v, key := k } = [["set", k, v]]) := by
  exact ⟨by simp [processRecord, hsize], rfl, fun k v => rfl⟩

/-- Claim C4 witness: concrete instance — a one-byte payload against a zero
oversize threshold, with the rewrite commands of the string object
`key="k", value="v"` and a pending expire of `250` ms. -/
theorem C4_oversize_rewrite_witness :
    ([118] : List Nat).length > cfgTiny.targetRedisProtoMaxBulkLen ∧
    processRecord cfgTiny 0 { initialState with expireMs := 250 }
      (.value 0 "k" [118] (StringObject.Rewrite { value := "v", key := "k" })) =
      .next { { initialState with expireMs := 250 } with
                expireMs := 0, idle := 0, freq := 0 }
        (((StringObject.Rewrite { value := "v", key := "k" }).map fun cmd =>
            ({ dbId := ({ initialState with expireMs := 250 } : LoaderState).nowDBId,
               argv := cmd, isBase := true } : Entry))
          ++ (if ({ initialState with expireMs := 250 } : LoaderState).expireMs ≠ 0 then
                [({ dbId := ({ initialState with expireMs := 250 } : LoaderState).nowDBId,
                    argv := ["PEXPIRE", "k",
                      toString ({ initialState with expireMs := 250 } : LoaderState).expireMs],
                    isBase := true } : Entry)]
              else [])) :=
  ⟨by decide,
   (C4_oversize_rewrite cfgTiny 0 { initialState with expireMs := 250 } 0 "k"
     [118] (StringObject.Rewrite { value := "v", key := "k" }) (by decide)).1⟩

/-- Claim C5: after the dispatcher finishes any `Value` record, on either
path, the three pending fields (`pending_expire_ms`, `pending_idle`,
`pending_freq`) are all reset to `0`. -/
theorem C5_pending_reset (cfg : Config) (now : Int) (st : LoaderState)
    (typeByte : Nat) (key : String) (payload : List Nat)
    (rewriteCmds : List (List String)) (st' : LoaderState) (es : List Entry)
    (h : processRecord cfg now st (.value typeByte key payload rewriteCmds) =
      .next st' es) :
    st'.expireMs = 0 ∧ st'.idle = 0 ∧ st'.freq = 0 := by
  simp only [processRecord] at h
  split at h
  · injection h with h1 h2
    subst h1
    exact ⟨rfl, rfl, rfl⟩
  · split at h
    · exact absurd h (by simp)
    · injection h with h1 h2
      subst h1
      exact ⟨rfl, rfl, rfl⟩

/-- Claim C5 witness: concrete instance — an oversize record with no rewrite
commands leaves the fresh state unchanged, all pending fields zero. -/
theorem C5_pending_reset_witness :
    processRecord cfgTiny 0 initialState (.value 0 "k" [118] []) =
      .next initialState [] ∧
    initialState.expireMs = 0 ∧ initialState.idle = 0 ∧
    initialState.freq = 0 :=
  ⟨by decide,
   C5_pending_reset cfgTiny 0 initialState 0 "k" [118] [] initialState []
     (by decide)⟩

/-- Helper: a single loop iteration on any record other than an
`aux "repl-stream-db"` record leaves `replStreamDbId` unchanged. -/
theorem processRecord_replStream_preserved (cfg : Config) (now : Int)
    (st st' : LoaderState) (es : List Entry) (r : RDBRecord)
    (hne : ∀ v, r ≠ .aux "repl-stream-db" v)
    (h : processRecord cfg now st r = .next st' es) :
    st'.replStreamDbId = st.replStreamDbId := by
  cases r with
  | idle v => injection h with h1 h2; subst h1; rfl
  | freq b => injection h with h1 h2; subst h1; rfl
  | aux k v =>
    have hk : ¬ k = "repl-stream-db" := fun hkk => hne v (by rw [hkk])
    simp only [processRecord, if_neg hk] at h
    split at h <;> (injection h with h1 h2; subst h1; rfl)
  | resizeHint d e => injection h with h1 h2; subst h1; rfl
  | expireAtMs ts => injection h with h1 h2; subst h1; rfl
  | expireAtSeconds ts => injection h with h1 h2; subst h1; rfl
  | selectDb idx => injection h with h1 h2; subst h1; rfl
  | eof => exact absurd h (by simp [processRecord])
  | value t k p rc =>
    simp only [processRecord] at h
    split at h
    · injection h with h1 h2; subst h1; rfl
    · split at h
      · exact absurd h (by simp)
      · injection h with h1 h2; subst h1; rfl

/-- Helper: a successful run over a record list containing no
`aux "repl-stream-db"` record leaves `replStreamDbId` unchanged. -/
theorem runRecords_replStream_preserved (cfg : Config) (now : Int)
    (records : List RDBRecord) :
    ∀ (st stF : LoaderState) (es : List Entry),
      runRecords cfg now st records = .ok (stF, es) →
      (∀ k v, RDBRecord.aux k v ∈ records → ¬ k = "repl-stream-db") →
      stF.replStreamDbId = st.replStreamDbId := by
  induction records with
  | nil =>
    intro st stF es h _
    simp [runRecords] at h
  | cons r rest ih =>
    intro st stF es h hmem
    simp only [runRecords] at h
    rcases hpr : processRecord cfg now st r with _ | ⟨st', es'⟩ | e <;>
      rw [hpr] at h <;> try dsimp only at h
    · simp only [Except.ok.injEq, Prod.mk.injEq] at h
      rw [← h.1]
    · rcases hrr : runRecords cfg now st' rest with e | ⟨stF', esF⟩ <;>
        rw [hrr] at h <;> try dsimp only at h
      · exact absurd h (by simp)
      · simp only [Except.ok.injEq, Prod.mk.injEq] at h
        have hne : ∀ v, r ≠ RDBRecord.aux "repl-stream-db" v := by
          intro v hv
          exact hmem "repl-stream-db" v (hv ▸ List.mem_cons_self r rest) rfl
        have h1 := processRecord_replStream_preserved cfg now st st' es' r
          hne hpr
        have h2 := ih st' stF' esF hrr fun k v hm =>
          hmem k v (List.mem_cons_of_mem _ hm)
        rw [← h.1, h2, h1]
    · exact absurd h (by simp)

/-- Claim C6: every metadata opcode updates the parser state and emits no
command, except `Aux("lua", script)`, which emits one snapshot-load command
`["script","load",script]`, and `Aux("repl-stream-db", v)`, which records the
parsed integer `v` in `replStreamDbId`; `ParseRDB` returns the final
`replStreamDbId` (initially `0`, and still `0` whenever no such aux record
occurred) instead of replaying it as data. -/
theorem C6_metadata_dispatch (cfg : Config) (now : Int) (st : LoaderState)
    (v b dbSize expireSize ts idx : Nat) (k val : String) :
    processRecord cfg now st (.idle v) =
      .next { st with idle := wrap64 v } [] ∧
    processRecord cfg now st (.freq b) =
      .next { st with freq := (b : Int) } [] ∧
    processRecord cfg now st (.resizeHint dbSize expireSize) = .next st [] ∧
    (∀ st' es, processRecord cfg now st (.expireAtMs ts) = .next st' es →
      es = []) ∧
    (∀ st' es, processRecord cfg now st (.expireAtSeconds ts) = .next st' es →
      es = []) ∧
    processRecord cfg now st (.selectDb idx) =
      .next { st with nowDBId := wrap64 idx } [] ∧
    (¬ k = "lua" → ¬ k = "repl-stream-db" →
      processRecord cfg now st (.aux k val) = .next st []) ∧
    processRecord cfg now st (.aux "lua" val) =
      .next st [{ dbId := 0, argv := ["script", "load", val], isBase := true }] ∧
    (∀ n, goAtoi val = some n →
      processRecord cfg now st (.aux "repl-stream-db" val) =
        .next { st with replStreamDbId := n } []) ∧
    initialState.replStreamDbId = 0 ∧
    (∀ records stF es, runRecords cfg now st records = .ok (stF, es) →
      (∀ kk vv, RDBRecord.aux kk vv ∈ records → ¬ kk = "repl-stream-db") →
      stF.replStreamDbId = st.replStreamDbId) ∧
    (∀ headerBytes records stF es,
      runRecords cfg now initialState records = .ok (stF, es) →
      ¬ headerBytes.length < 9 → headerBytes.take 5 = redisMagic →
      (goAtoi (bytesToString ((headerBytes.drop 5).take 4))).isSome →
      ParseRDB cfg now headerBytes records = .ok (stF.replStreamDbId, es)) := by
  refine ⟨rfl, rfl, rfl, ?_, ?_, rfl, ?_, ?_, ?_, rfl, ?_, ?_⟩
  · intro st' es h; injection h with h1 h2; exact h2.symm
  · intro st' es h; injection h with h1 h2; exact h2.symm
  · intro hl hr; simp [processRecord, hl, hr]
  · simp [processRecord]
  · intro n hn; simp [processRecord, hn]
  · intro records stF es h hm
    exact runRecords_replStream_preserved cfg now records st stF es h hm
  · intro headerBytes records stF es hrun h9 hmagic hsome
    obtain ⟨ver, hver⟩ := Option.isSome_iff_exists.mp hsome
    simp only [ParseRDB, if_neg h9, if_neg (not_not_intro hmagic), hver, hrun]

/-- Claim C6 witness: concrete instance — `Aux("repl-stream-db","3")` records
`3` and emits nothing. -/
theorem C6_metadata_dispatch_witness :
    goAtoi "3" = some 3 ∧
    processRecord cfgPlain 0 initialState (.aux "repl-stream-db" "3") =
      .next { initialState with replStreamDbId := 3 } [] :=
  ⟨by decide,
   (C6_metadata_dispatch cfgPlain 0 initialState 0 0 0 0 0 0 "x"
     "3").2.2.2.2.2.2.2.2.1 3 (by decide)⟩

/-- Helper: a record satisfying `avoidsReplaceGate` that is not the end
marker always yields a `next` step, whatever the state. -/
theorem processRecord_next_of_avoids (cfg : Config) (now : Int)
    (st : LoaderState) (r : RDBRecord) (hr : avoidsReplaceGate cfg r)
    (hne : r ≠ .eof) :
    ∃ st' es, processRecord cfg now st r = .next st' es := by
  cases r with
  | idle v => exact ⟨_, _, rfl⟩
  | freq b => exact ⟨_, _, rfl⟩
  | aux k v =>
    by_cases hk : k = "repl-stream-db"
    · subst hk
      have hsome : (goAtoi v).isSome := hr rfl
      obtain ⟨n, hn⟩ := Option.isSome_iff_exists.mp hsome
      exact ⟨{ st with replStreamDbId := n }, [], by simp [processRecord, hn]⟩
    · by_cases hl : k = "lua"
      · refine ⟨st, [{ dbId := 0, argv := ["script", "load", v], isBase := true }], ?_⟩
        simp [processRecord, hk, hl]
      · exact ⟨st, [], by simp [processRecord, hk, hl]⟩
  | resizeHint d e => exact ⟨_, _, rfl⟩
  | expireAtMs ts => exact ⟨_, _, rfl⟩
  | expireAtSeconds ts => exact ⟨_, _, rfl⟩
  | selectDb idx => exact ⟨_, _, rfl⟩
  | eof => exact absurd rfl hne
  | value t k p rc =>
    have hover : p.length > cfg.targetRedisProtoMaxBulkLen := hr
    exact ⟨{ st with expireMs := 0, idle := 0, freq := 0 },
      (rc.map fun cmd =>
        ({ dbId := st.nowDBId, argv := cmd, isBase := true } : Entry))
        ++ (if st.expireMs ≠ 0 then
              [({ dbId := st.nowDBId,
                  argv := ["PEXPIRE", k, toString st.expireMs],
                  isBase := true } : Entry)]
            else []),
      by simp [processRecord, hover]⟩

/-- Helper: a record list that reaches the end marker without any record that
could trip a fatal condition runs to a successful result. -/
theorem runRecords_ok_of_avoids (cfg : Config) (now : Int) :
    ∀ (records : List RDBRecord) (st : LoaderState),
      (∀ r ∈ records, avoidsReplaceGate cfg r) →
      RDBRecord.eof ∈ records →
      ∃ res, runRecords cfg now st records = .ok res := by
  intro records
  induction records with
  | nil => intro st _ hmem; cases hmem
  | cons r rest ih =>
    intro st hall hmem
    by_cases he : r = RDBRecord.eof
    · subst he
      exact ⟨(st, []), by simp [runRecords, processRecord]⟩
    · obtain ⟨st', es, hstep⟩ :=
        processRecord_next_of_avoids cfg now st r
          (hall r (List.mem_cons_self r rest)) he
      have hmem' : RDBRecord.eof ∈ rest := by
        rcases List.mem_cons.mp hmem with h | h
        · exact absurd h.symm he
        · exact h
      obtain ⟨⟨stF, esF⟩, hrr⟩ :=
        ih st' (fun r' hr' => hall r' (List.mem_cons_of_mem _ hr')) hmem'
      refine ⟨(stF, es ++ esF), ?_⟩
      simp only [runRecords, hstep, hrr]

/-- Claim C7: when the restore behaviour is `"rewrite"` and the target
version is below `3.0`, the parse fails fatally — but lazily: the failure
fires at the first `Value` record taking the normal (envelope) path, while a
run whose records all avoid that path (oversize values or no values at all)
still reaches the end marker successfully. -/
theorem C7_lazy_version_gate (cfg : Config) (now : Int)
    (hb : cfg.rdbRestoreCommandBehavior = "rewrite")
    (hv : cfg.targetVersion < 3) :
    (∀ st typeByte key payload rewriteCmds,
      payload.length ≤ cfg.targetRedisProtoMaxBulkLen →
      processRecord cfg now st (.value typeByte key payload rewriteCmds) =
        .fail .replaceNotSupported) ∧
    (∀ st records, (∀ r ∈ records, avoidsReplaceGate cfg r) →
      RDBRecord.eof ∈ records →
      ∃ res, runRecords cfg now st records = .ok res) := by
  constructor
  · intro st typeByte key payload rewriteCmds hsize
    have hns : ¬ payload.length > cfg.targetRedisProtoMaxBulkLen := by omega
    simp [processRecord, hns, hb, hv]
  · intro st records hall hmem
    exact runRecords_ok_of_avoids cfg now records st hall hmem

/-- Claim C7 witness: with rewrite-on-restore against target version 2, a
small value record fails immediately, while a stream of one oversize value
record followed by the end marker parses successfully. -/
theorem C7_lazy_version_gate_witness :
    cfgRewriteOld.rdbRestoreCommandBehavior = "rewrite" ∧
    cfgRewriteOld.targetVersion < 3 ∧
    processRecord cfgRewriteOld 0 initialState (.value 0 "k" [118] []) =
      .fail .replaceNotSupported ∧
    (∃ res, runRecords cfgRewriteOld 0 initialState [RDBRecord.eof] = .ok res) :=
  ⟨by decide, by decide,
   (C7_lazy_version_gate cfgRewriteOld 0 (by decide) (by decide)).1
     initialState 0 "k" [118] [] (by decide),
   (C7_lazy_version_gate cfgRewriteOld 0 (by decide) (by decide)).2
     initialState [RDBRecord.eof]
     (by intro r hr; rw [List.mem_singleton] at hr; subst hr; trivial)
     (List.mem_singleton.mpr rfl)⟩

/-- Claim C8: `ParseRDB` validates the 9 header bytes before any record:
fewer than 9 bytes, a first-5-byte mismatch with `"REDIS"`, or next-4 bytes
that do not `Atoi`-parse each abort fatally, and on any such header failure
the result is independent of the record stream — no record is consumed and no
command is emitted. -/
theorem C8_header_validation (cfg : Config) (now : Int)
    (headerBytes : List Nat) (records records' : List RDBRecord) :
    (headerBytes.length < 9 →
      ParseRDB cfg now headerBytes records = .error .headerTruncated) ∧
    (¬ headerBytes.length < 9 → ¬ headerBytes.take 5 = redisMagic →
      ParseRDB cfg now headerBytes records = .error .badMagic) ∧
    (¬ headerBytes.length < 9 → headerBytes.take 5 = redisMagic →
      goAtoi (bytesToString ((headerBytes.drop 5).take 4)) = none →
      ParseRDB cfg now headerBytes records = .error .badVersion) ∧
    (headerBytes.length < 9 ∨ ¬ headerBytes.take 5 = redisMagic ∨
        goAtoi (bytesToString ((headerBytes.drop 5).take 4)) = none →
      ParseRDB cfg now headerBytes records =
        ParseRDB cfg now headerBytes records') := by
  refine ⟨?_, ?_, ?_, ?_⟩
  · intro h9; simp [ParseRDB, h9]
  · intro h9 hm; simp [ParseRDB, h9, hm]
  · intro h9 hm hnone; simp [ParseRDB, h9, hm, hnone]
  · intro hbad
    by_cases h9 : headerBytes.length < 9
    · simp [ParseRDB, h9]
    · by_cases hm : headerBytes.take 5 = redisMagic
      · have hnone : goAtoi (bytesToString ((headerBytes.drop 5).take 4)) =
            none := by
          rcases hbad with h | h | h
          · exact absurd h h9
          · exact absurd hm h
          · exact h
        simp [ParseRDB, h9, hm, hnone]
      · simp [ParseRDB, h9, hm]

/-- Claim C8 witness: a 9-byte header whose first five bytes are not
`"REDIS"` aborts with `badMagic`, whatever record stream would follow. -/
theorem C8_header_validation_witness :
    ¬ ([0, 1, 2, 3, 4, 5, 6, 7, 8] : List Nat).length < 9 ∧
    ¬ ([0, 1, 2, 3, 4, 5, 6, 7, 8] : List Nat).take 5 = redisMagic ∧
    ParseRDB cfgPlain 0 [0, 1, 2, 3, 4, 5, 6, 7, 8] [] =
      .error .badMagic :=
  ⟨by decide, by decide,
   (C8_header_validation cfgPlain 0 [0, 1, 2, 3, 4, 5, 6, 7, 8] [] []).2.1
     (by decide) (by decide)⟩

/-- Claim C10: on the oversize path every emitted command is either one of
the decoded object's `Rewrite` command lists or the single optional `PEXPIRE`
command — in particular no `idletime` or `freq` modifier is ever attached —
and the pending idle/freq hints are then reset to `0`. -/
theorem C10_oversize_discards_hints (cfg : Config) (now : Int)
    (st : LoaderState) (typeByte : Nat) (key : String) (payload : List Nat)
    (rewriteCmds : List (List String)) (st' : LoaderState) (es : List Entry)
    (hsize : payload.length > cfg.targetRedisProtoMaxBulkLen)
    (h : processRecord cfg now st (.value typeByte key payload rewriteCmds) =
      .next st' es) :
    (∀ e ∈ es, e.argv ∈ rewriteCmds ∨
      e.argv = ["PEXPIRE", key, toString st.expireMs]) ∧
    st'.idle = 0 ∧ st'.freq = 0 := by
  have heq : processRecord cfg now st (.value typeByte key payload rewriteCmds) =
      .next { st with expireMs := 0, idle := 0, freq := 0 }
        ((rewriteCmds.map fun cmd =>
            ({ dbId := st.nowDBId, argv := cmd, isBase := true } : Entry))
          ++ (if st.expireMs ≠ 0 then
                [({ dbId := st.nowDBId,
                    argv := ["PEXPIRE", key, toString st.expireMs],
                    isBase := true } : Entry)]
              else [])) := by
    simp [processRecord, hsize]
  rw [heq] at h
  injection h with h1 h2
  subst h1
  subst h2
  refine ⟨?_, rfl, rfl⟩
  intro e he
  rcases List.mem_append.mp he with hm | hm
  · obtain ⟨cmd, hcmd, rfl⟩ := List.mem_map.mp hm
    exact Or.inl hcmd
  · by_cases hexp : st.expireMs ≠ 0
    · rw [if_pos hexp, List.mem_singleton] at hm
      subst hm
      exact Or.inr rfl
    · rw [if_neg hexp] at hm
      cases hm

/-- Claim C10 witness: an oversize record with pending idle `7`, freq `9` and
expire `250` emits exactly the rewrite command and the `PEXPIRE` command, and
resets the hints. -/
theorem C10_oversize_discards_hints_witness :
    ([118] : List Nat).length > cfgTiny.targetRedisProtoMaxBulkLen ∧
    ((∀ e ∈ ([{ dbId := 0, argv := ["set", "k", "v"], isBase := true },
              { dbId := 0, argv := ["PEXPIRE", "k", "250"],
                isBase := true }] : List Entry),
        e.argv ∈ [["set", "k", "v"]] ∨
        e.argv = ["PEXPIRE", "k",
          toString ({ initialState with
            expireMs := 250, idle := 7, freq := 9 } : LoaderState).expireMs]) ∧
      ({ initialState with expireMs := 0, idle := 0, freq := 0 } :
        LoaderState).idle = 0 ∧
      ({ initialState with expireMs := 0, idle := 0, freq := 0 } :
        LoaderState).freq = 0) :=
  ⟨by decide,
   C10_oversize_discards_hints cfgTiny 0
     { initialState with expireMs := 250, idle := 7, freq := 9 } 0 "k" [118]
     [["set", "k", "v"]]
     { initialState with expireMs := 0, idle := 0, freq := 0 }
     [{ dbId := 0, argv := ["set", "k", "v"], isBase := true },
      { dbId := 0, argv := ["PEXPIRE", "k", "250"], isBase := true }]
     (by decide) (by decide)⟩

end RedisShake
